import Mathlib

set_option maxHeartbeats 1000000

/-
Verification of the seos event-dispatch kernel (firmware/src/seos.c) and the
gyroscope stillness-calibration pipeline
(firmware/os/algos/calibration/gyroscope/gyro_cal.c).

Shallow embedding conventions:
  - C float fields are modelled as rationals; the claims settled here depend
    only on comparisons and field plumbing, not on rounding.
  - uint64 time stamps and u32 ids are modelled as Nat.
  - functions that write through pointers are modelled as returning the new
    values of the written locations; the prior contents of an output location
    are passed in explicitly where the source may leave it unwritten.
-/

/- ---------------------------------------------------------------------
   Tagged free-info word (spec section 4.1; util.h is not in this tree).
   One machine word carrying either a free-function pointer or a task id;
   zero in either form means the empty free action.
--------------------------------------------------------------------- -/

inductive TaggedPtr where
  | fromPtr (addr : Nat) : TaggedPtr
  | fromUint (tid : Nat) : TaggedPtr
deriving DecidableEq, Repr

/-- A tagged word denotes the empty free action when the pointer is NULL or
the task id is zero (seos.c, handleEventFreeing, lines 113-115). -/
def taggedPtrIsNull : TaggedPtr → Bool
  | .fromPtr addr => addr == 0
  | .fromUint tid => tid == 0

/- ---------------------------------------------------------------------
   Dispatch-loop event-freeing state (seos.c lines 98, 111-128, 530-543,
   562-599).  The state tracks the current-event free-info slot
   mCurEvtEventFreeingInfo, and counts how many times the free policy
   handleEventFreeing has executed the free action of the event in flight.
--------------------------------------------------------------------- -/

structure LoopState where
  curEvtFreeInfo : Option TaggedPtr
  freeApplied : Nat
deriving DecidableEq, Repr

/-- handleEventFreeing (seos.c lines 111-128): a null info is a no-op, any
other info has its free action executed once (direct free function, or an
EVT_APP_FREE_EVT_DATA dispatch to the owning task).  The model counts the
executions of the free action. -/
def handleEventFreeing (fi : TaggedPtr) (s : LoopState) : LoopState :=
  if taggedPtrIsNull fi then s else { s with freeApplied := s.freeApplied + 1 }

/-- osRetainCurrentEvent (seos.c lines 530-538): fails when the slot is
already empty; on success copies the free info out and clears the slot. -/
def osRetainCurrentEvent (s : LoopState) : Bool × Option TaggedPtr × LoopState :=
  match s.curEvtFreeInfo with
  | none => (false, none, s)
  | some fi => (true, some fi, { s with curEvtFreeInfo := none })

/-- osFreeRetainedEvent (seos.c lines 540-543). -/
def osFreeRetainedEvent (fi : TaggedPtr) (s : LoopState) : LoopState :=
  handleEventFreeing fi s

/-- The retain attempts made by the handlers invoked while one event is being
delivered: each attempt is one osRetainCurrentEvent call; the list records
for each call, the returned success flag and copied-out info. -/
def runRetainCalls : Nat → LoopState → List (Bool × Option TaggedPtr) × LoopState
  | 0, s => ([], s)
  | n + 1, s =>
    let r := osRetainCurrentEvent s
    let rest := runRetainCalls n r.2.2
    ((r.1, r.2.1) :: rest.1, rest.2)

/-- One iteration of osMainDequeueLoop (seos.c lines 562-599) after the
dequeue, for a broadcast event: the slot is pointed at the dequeued free
info, the handlers run (abstracted to their retain attempts), and if the
slot is still set the free action is applied; finally the slot is cleared. -/
def osMainDequeueLoopIter (fi : TaggedPtr) (attempts : Nat) :
    List (Bool × Option TaggedPtr) × LoopState :=
  let s0 : LoopState := { curEvtFreeInfo := some fi, freeApplied := 0 }
  let r := runRetainCalls attempts s0
  let s1 := if r.2.curEvtFreeInfo.isSome then handleEventFreeing fi r.2 else r.2
  (r.1, { s1 with curEvtFreeInfo := none })

/-- The EVT_PRIVATE_EVT branch of osInternalEvtHandle (seos.c lines 506-519):
when the target task exists the slot is cleared for the duration of the
delivery and restored afterwards, so retention is impossible; whether or not
the target exists, the free info of the private event is applied exactly once. -/
def osInternalEvtHandlePrivate (targetExists : Bool) (attempts : Nat)
    (fi : TaggedPtr) (s : LoopState) : List (Bool × Option TaggedPtr) × LoopState :=
  if targetExists then
    let tmp := s.curEvtFreeInfo
    let s1 := { s with curEvtFreeInfo := none }
    let r := runRetainCalls attempts s1
    let s2 := { r.2 with curEvtFreeInfo := tmp }
    (r.1, handleEventFreeing fi s2)
  else
    ([], handleEventFreeing fi s)

/- ---------------------------------------------------------------------
   Subscription table (seos.c lines 51-67, 463-500, 611-636).
   The subscription list of a task is the first subbedEvtCount entries of
   subbedEvents; subbedEvtListSz is the current capacity.
--------------------------------------------------------------------- -/

structure SubList where
  subbedEvents : List Nat
  subbedEvtListSz : Nat
deriving DecidableEq, Repr

/-- The EVT_SUBSCRIBE_TO_EVT / EVT_UNSUBSCRIBE_TO_EVT branch of
osInternalEvtHandle (seos.c lines 470-500), for a resolved task.  The scan
finds the first subscribed index equal to the event type.  Unsubscribe of a
present type moves the last element into its slot and shrinks the count.
Subscribe of an absent type first tries to grow a full list to
(sz * 3 + 1) / 2 entries (C integer division; allocOk models whether the
heapAlloc succeeded, the old entries are carried over by the memcpy), then
appends when there is space. -/
def osInternalEvtHandleSubUnsub (isSub : Bool) (evt : Nat) (allocOk : Bool)
    (t : SubList) : SubList :=
  match t.subbedEvents.findIdx? (fun e => e == evt) with
  | some i =>
    if isSub then t
    else { t with
      subbedEvents := (t.subbedEvents.set i (t.subbedEvents.getLastD 0)).dropLast }
  | none =>
    if isSub then
      let t1 := if t.subbedEvtListSz = t.subbedEvents.length ∧ allocOk then
          { t with subbedEvtListSz := (t.subbedEvtListSz * 3 + 1) / 2 } else t
      if t.subbedEvents.length < t1.subbedEvtListSz then
        { t1 with subbedEvents := t1.subbedEvents ++ [evt] } else t1
    else t

/-- A sequence of subscribe/unsubscribe internal actions processed by the
dispatch loop on one task, with every growth allocation succeeding (the spec
treats the heap as available).  An action (b, e) subscribes e when b is true
and unsubscribes e otherwise. -/
def runSubActions (acts : List (Bool × Nat)) (t : SubList) : SubList :=
  acts.foldl (fun s a => osInternalEvtHandleSubUnsub a.1 a.2 true s) t

/-- The most recent action of a sequence that concerns event type e:
some true when it was a subscribe, some false when an unsubscribe, none when
no action concerned e. -/
def lastActionFor (acts : List (Bool × Nat)) (e : Nat) : Option Bool :=
  (acts.reverse.find? (fun a => a.2 == e)).map (fun a => a.1)

/-- Invariant of the subscription list of a live task: no duplicate event types,
the count never exceeds the capacity, and the capacity is positive (it starts
at MAX_EMBEDDED_EVT_SUBS ≥ 1 when the task starts, seos.c line 282). -/
def SubInv (t : SubList) : Prop :=
  t.subbedEvents.Nodup ∧ t.subbedEvents.length ≤ t.subbedEvtListSz ∧
    1 ≤ t.subbedEvtListSz

/-- osEventSubscribeUnsubscribe (seos.c lines 616-626): allocate an internal
action record from the slab (slabOk), then enqueue it (enqueueOk is the
result of osEnqueueEvtOrFree, which frees the record on failure).  The bool
returned to the caller is false exactly when one of the two fails. -/
def osEventSubscribeUnsubscribe (slabOk : Bool) (enqueueOk : Bool) : Bool :=
  if slabOk then enqueueOk else false

/-- The growth size exactly as the specification words it:
ceil((old * 3 + 1) / 2), written over the naturals. -/
def specSubListGrowSz (old : Nat) : Nat := (old * 3 + 1 + 1) / 2

/- ---------------------------------------------------------------------
   Task-id allocation (seos.c lines 95-109, 162-172).  The live registry is
   modelled by the list of tid fields of mTasks[0..mTaskCnt); a zero tid is
   an empty slot.  FIRST_VALID_TID and LAST_VALID_TID come from seos.h,
   which is not in this tree, so they are kept as parameters first/last.
   osGetFreeTid is a do/while loop; it is embedded with explicit fuel, one
   unit per loop iteration, so that non-termination is expressible.
--------------------------------------------------------------------- -/

/-- osTaskFindByTid (seos.c lines 100-109), reduced to whether a live task
with the given tid exists. -/
def osTaskFindByTid (live : List Nat) (tid : Nat) : Bool :=
  live.any (fun t => !(t == 0) && t == tid)

/-- One advance of mNextTidInfo (seos.c lines 165-168): wrap from last to
first, otherwise increment. -/
def nextTidCandidate (first last cur : Nat) : Nat :=
  if cur = last then first else cur + 1

/-- osGetFreeTid (seos.c lines 162-172) with fuel: advance the counter, and
keep advancing while the candidate is the tid of a live task; none means the
fuel ran out, i.e. the loop was still running after that many iterations. -/
def osGetFreeTid (live : List Nat) (first last : Nat) : Nat → Nat → Option Nat
  | 0, _ => none
  | fuel + 1, cur =>
    let c := nextTidCandidate first last cur
    if osTaskFindByTid live c then osGetFreeTid live first last fuel c
    else some c

/-- Number of nextTidCandidate steps needed to walk from cur to t along the
cycle first, first+1, ..., last, first, ... -/
def tidCycleDist (first last cur t : Nat) : Nat :=
  if cur < t then t - cur else last - cur + (t - first) + 1

/- ---------------------------------------------------------------------
   Gyroscope calibration (gyro_cal.c).  Floats are modelled as rationals.
--------------------------------------------------------------------- -/

/-- MAX_GYRO_BIAS (gyro_cal.c line 30): 0.1 rad/sec. -/
def MAX_GYRO_BIAS : ℚ := 1 / 10

/-- FLT_MAX, the largest finite single-precision value, used by the tracker
resets: (2 - 2^-23) * 2^127. -/
def FLT_MAX : ℚ := (2 ^ 24 - 1) * 2 ^ 104

/-- Fields of the per-sensor stillness detector consumed by gyro_cal.c.  The
detector itself (gyro_stillness_detect.c) is outside this tree; only the
fields gyro_cal.c reads or writes are modelled. -/
structure GyroStillDet where
  stillness_window_ready : Bool
  stillness_confidence : ℚ
  prev_stillness_confidence : ℚ
  win_mean_x : ℚ
  win_mean_y : ℚ
  win_mean_z : ℚ
  prev_mean_x : ℚ
  prev_mean_y : ℚ
  prev_mean_z : ℚ
  last_sample_time : Nat
  window_start_time : Nat
deriving DecidableEq, Repr

/-- Modelled from the spec: gyroStillDetReset, the reset entry point of the
stillness-detector primitive, whose source is not part of this tree.  Per
spec sections 4.8 and 8 it restarts data capture, so the window-ready flag is
cleared (the spec requires all detector window-ready flags false after a
watchdog timeout, which ends in these resets); when reset_stats is set the
accumulated window statistics are cleared as well. -/
def gyroStillDetReset (d : GyroStillDet) (resetStats : Bool) : GyroStillDet :=
  if resetStats then
    { d with stillness_window_ready := false,
             win_mean_x := 0, win_mean_y := 0, win_mean_z := 0 }
  else
    { d with stillness_window_ready := false }

/-- struct GyroCal, restricted to the fields gyro_cal.c manipulates in the
functions under verification. -/
structure GyroCal where
  accel_stillness_detect : GyroStillDet
  gyro_stillness_detect : GyroStillDet
  mag_stillness_detect : GyroStillDet
  bias_x : ℚ
  bias_y : ℚ
  bias_z : ℚ
  bias_temperature_celsius : ℚ
  calibration_time_nanos : Nat
  stillness_confidence : ℚ
  prev_still : Bool
  start_still_time_nanos : Nat
  stillness_win_endtime_nanos : Nat
  gyro_watchdog_start_nanos : Nat
  gyro_watchdog_timeout_duration_nanos : Nat
  window_time_duration_nanos : Nat
  min_still_duration_nanos : Nat
  max_still_duration_nanos : Nat
  stillness_threshold : ℚ
  stillness_mean_delta_limit : ℚ
  temperature_delta_limit_celsius : ℚ
  temperature_mean_celsius : ℚ
  temperature_min_max_celsius : ℚ × ℚ
  gyro_winmean_min : ℚ × ℚ × ℚ
  gyro_winmean_max : ℚ × ℚ × ℚ
  using_mag_sensor : Bool
  gyro_calibration_enable : Bool
  new_gyro_cal_available : Bool
  gyro_watchdog_timeout : Bool
deriving DecidableEq

/-- The function-local static accumulators of gyroTemperatureStatsTracker and
gyroStillMeanTracker (gyro_cal.c lines 639-646 and 709-712). -/
structure GyroCalTrackers where
  temp_mean_accumulator : ℚ
  temp_num_points : Nat
  temp_min : ℚ
  temp_max : ℚ
  winmean_min : ℚ × ℚ × ℚ
  winmean_max : ℚ × ℚ × ℚ
deriving DecidableEq

inductive GyroCalTrackerCommand where
  | DO_RESET
  | DO_UPDATE_DATA
  | DO_STORE_DATA
  | DO_EVALUATE
deriving DecidableEq, Repr

/-- gyroTemperatureStatsTracker (gyro_cal.c lines 639-707). -/
def gyroTemperatureStatsTracker (g : GyroCal) (tr : GyroCalTrackers)
    (temperatureCelsius : ℚ) (doThis : GyroCalTrackerCommand) :
    Bool × GyroCal × GyroCalTrackers :=
  match doThis with
  | .DO_RESET =>
    (false, g, { tr with temp_num_points := 0, temp_mean_accumulator := 0,
                         temp_min := FLT_MAX, temp_max := -1 * (FLT_MAX - 1) })
  | .DO_UPDATE_DATA =>
    let tr1 := { tr with
      temp_mean_accumulator := tr.temp_mean_accumulator + temperatureCelsius,
      temp_num_points := tr.temp_num_points + 1 }
    let tr2 := if tr1.temp_min > temperatureCelsius then
        { tr1 with temp_min := temperatureCelsius } else tr1
    let tr3 := if tr2.temp_max < temperatureCelsius then
        { tr2 with temp_max := temperatureCelsius } else tr2
    (false, g, tr3)
  | .DO_STORE_DATA =>
    if 0 < tr.temp_num_points then
      (false,
       { g with temperature_min_max_celsius := (tr.temp_min, tr.temp_max),
                temperature_mean_celsius :=
                  tr.temp_mean_accumulator / tr.temp_num_points },
       tr)
    else (false, g, tr)
  | .DO_EVALUATE =>
    if 0 < tr.temp_num_points then
      ((tr.temp_max - tr.temp_min > g.temperature_delta_limit_celsius), g, tr)
    else (false, g, tr)

/-- gyroStillMeanTracker (gyro_cal.c lines 709-778). -/
def gyroStillMeanTracker (g : GyroCal) (tr : GyroCalTrackers)
    (doThis : GyroCalTrackerCommand) : Bool × GyroCal × GyroCalTrackers :=
  match doThis with
  | .DO_RESET =>
    (false, g, { tr with
      winmean_min := (FLT_MAX, FLT_MAX, FLT_MAX),
      winmean_max := (-1 * (FLT_MAX - 1), -1 * (FLT_MAX - 1), -1 * (FLT_MAX - 1)) })
  | .DO_UPDATE_DATA =>
    let d := g.gyro_stillness_detect
    let mn := tr.winmean_min
    let mx := tr.winmean_max
    let mn1 := (min mn.1 d.win_mean_x, min mn.2.1 d.win_mean_y,
                min mn.2.2 d.win_mean_z)
    let mx1 := (max mx.1 d.win_mean_x, max mx.2.1 d.win_mean_y,
                max mx.2.2 d.win_mean_z)
    (false, g, { tr with winmean_min := mn1, winmean_max := mx1 })
  | .DO_STORE_DATA =>
    (false, { g with gyro_winmean_min := tr.winmean_min,
                     gyro_winmean_max := tr.winmean_max }, tr)
  | .DO_EVALUATE =>
    let mn := tr.winmean_min
    let mx := tr.winmean_max
    ((mx.1 - mn.1 > g.stillness_mean_delta_limit ∨
      mx.2.1 - mn.2.1 > g.stillness_mean_delta_limit ∨
      mx.2.2 - mn.2.2 > g.stillness_mean_delta_limit), g, tr)

/-- gyroCalRemoveBias (gyro_cal.c lines 275-282).  xo0, yo0, zo0 are the
values held in the output locations before the call; the C function writes
the outputs only when calibration is enabled. -/
def gyroCalRemoveBias (g : GyroCal) (xi yi zi xo0 yo0 zo0 : ℚ) : ℚ × ℚ × ℚ :=
  if g.gyro_calibration_enable then
    (xi - g.bias_x, yi - g.bias_y, zi - g.bias_z)
  else (xo0, yo0, zo0)

/-- computeGyroCal (gyro_cal.c lines 517-574). -/
def computeGyroCal (g : GyroCal) (calibrationTimeNanos : Nat) : GyroCal :=
  if ¬(g.gyro_stillness_detect.prev_mean_x < MAX_GYRO_BIAS ∧
       -MAX_GYRO_BIAS < g.gyro_stillness_detect.prev_mean_x ∧
       g.gyro_stillness_detect.prev_mean_y < MAX_GYRO_BIAS ∧
       -MAX_GYRO_BIAS < g.gyro_stillness_detect.prev_mean_y ∧
       g.gyro_stillness_detect.prev_mean_z < MAX_GYRO_BIAS ∧
       -MAX_GYRO_BIAS < g.gyro_stillness_detect.prev_mean_z) then g
  else
    { g with
      bias_x := g.gyro_stillness_detect.prev_mean_x,
      bias_y := g.gyro_stillness_detect.prev_mean_y,
      bias_z := g.gyro_stillness_detect.prev_mean_z,
      bias_temperature_celsius := g.temperature_mean_celsius,
      calibration_time_nanos := calibrationTimeNanos,
      stillness_confidence :=
        g.gyro_stillness_detect.prev_stillness_confidence *
        g.accel_stillness_detect.prev_stillness_confidence *
        g.mag_stillness_detect.prev_stillness_confidence,
      new_gyro_cal_available := true }

/-- checkWatchdog (gyro_cal.c lines 577-634). -/
def checkWatchdog (g : GyroCal) (tr : GyroCalTrackers) (sampleTimeNanos : Nat) :
    GyroCal × GyroCalTrackers :=
  if g.gyro_watchdog_start_nanos = 0 then (g, tr)
  else if g.gyro_watchdog_timeout_duration_nanos + g.gyro_watchdog_start_nanos
          < sampleTimeNanos then
    let g1 := { g with
      accel_stillness_detect := gyroStillDetReset g.accel_stillness_detect true,
      gyro_stillness_detect := gyroStillDetReset g.gyro_stillness_detect true,
      mag_stillness_detect := gyroStillDetReset g.mag_stillness_detect true }
    let r1 := gyroTemperatureStatsTracker g1 tr 0 .DO_RESET
    let r2 := gyroStillMeanTracker r1.2.1 r1.2.2 .DO_RESET
    let g2 := r2.2.1
    let g3 := { g2 with
      stillness_win_endtime_nanos := 0,
      accel_stillness_detect :=
        { g2.accel_stillness_detect with prev_stillness_confidence := 0 },
      gyro_stillness_detect :=
        { g2.gyro_stillness_detect with prev_stillness_confidence := 0 },
      mag_stillness_detect :=
        { g2.mag_stillness_detect with prev_stillness_confidence := 0 },
      stillness_confidence := 0,
      prev_still := false }
    let g4 := if !g3.mag_stillness_detect.stillness_window_ready &&
                 g3.using_mag_sensor then
        { g3 with using_mag_sensor := false } else g3
    ({ g4 with gyro_watchdog_timeout := g4.gyro_watchdog_timeout || true,
               gyro_watchdog_start_nanos := 0 }, r2.2.2)
  else (g, tr)

/- ---------------------------------------------------------------------
   Concrete sample states used by witnesses and counterexamples.
--------------------------------------------------------------------- -/

def gyroStillDet0 : GyroStillDet :=
  { stillness_window_ready := false, stillness_confidence := 0,
    prev_stillness_confidence := 0, win_mean_x := 0, win_mean_y := 0,
    win_mean_z := 0, prev_mean_x := 0, prev_mean_y := 0, prev_mean_z := 0,
    last_sample_time := 0, window_start_time := 0 }

def gyroCal0 : GyroCal :=
  { accel_stillness_detect := gyroStillDet0,
    gyro_stillness_detect := gyroStillDet0,
    mag_stillness_detect := gyroStillDet0,
    bias_x := 0, bias_y := 0, bias_z := 0, bias_temperature_celsius := 0,
    calibration_time_nanos := 0, stillness_confidence := 0,
    prev_still := false, start_still_time_nanos := 0,
    stillness_win_endtime_nanos := 0, gyro_watchdog_start_nanos := 0,
    gyro_watchdog_timeout_duration_nanos := 0, window_time_duration_nanos := 0,
    min_still_duration_nanos := 0, max_still_duration_nanos := 0,
    stillness_threshold := 0, stillness_mean_delta_limit := 0,
    temperature_delta_limit_celsius := 0, temperature_mean_celsius := 0,
    temperature_min_max_celsius := (0, 0), gyro_winmean_min := (0, 0, 0),
    gyro_winmean_max := (0, 0, 0), using_mag_sensor := false,
    gyro_calibration_enable := false, new_gyro_cal_available := false,
    gyro_watchdog_timeout := false }

def gyroCalTrackers0 : GyroCalTrackers :=
  { temp_mean_accumulator := 0, temp_num_points := 0, temp_min := 0,
    temp_max := 0, winmean_min := (0, 0, 0), winmean_max := (0, 0, 0) }

/-- A state whose gyro detector holds an in-range previous window mean, used
to exercise the accepting branch of computeGyroCal. -/
def gyroCalC3 : GyroCal :=
  { gyroCal0 with
    gyro_stillness_detect :=
      { gyroStillDet0 with prev_mean_x := 1 / 100, prev_mean_y := -1 / 50,
                           prev_mean_z := 1 / 200,
                           prev_stillness_confidence := 9 / 10 },
    accel_stillness_detect :=
      { gyroStillDet0 with prev_stillness_confidence := 4 / 5 },
    mag_stillness_detect :=
      { gyroStillDet0 with prev_stillness_confidence := 1 },
    temperature_mean_celsius := 25 }

/-- A state with an armed watchdog, used to exercise checkWatchdog. -/
def gyroCalC4 : GyroCal :=
  { gyroCal0 with gyro_watchdog_start_nanos := 1,
                  gyro_watchdog_timeout_duration_nanos := 10,
                  stillness_win_endtime_nanos := 500,
                  using_mag_sensor := true, prev_still := true }

/- ---------------------------------------------------------------------
   Helper lemmas about the retention state machine.
--------------------------------------------------------------------- -/

theorem runRetainCalls_none (n : Nat) (s : LoopState)
    (h : s.curEvtFreeInfo = none) :
    runRetainCalls n s = (List.replicate n (false, none), s) := by
  induction n generalizing s with
  | zero => simp [runRetainCalls]
  | succ n ih =>
    simp [runRetainCalls, osRetainCurrentEvent, h, ih s h, List.replicate_succ]

theorem runRetainCalls_some (n : Nat) (s : LoopState) (fi : TaggedPtr)
    (h : s.curEvtFreeInfo = some fi) :
    runRetainCalls (n + 1) s =
      ((true, some fi) :: List.replicate n (false, none),
       { s with curEvtFreeInfo := none }) := by
  have h2 : ({ s with curEvtFreeInfo := none } : LoopState).curEvtFreeInfo = none := rfl
  simp [runRetainCalls, osRetainCurrentEvent, h, runRetainCalls_none n _ h2]

/- ---------------------------------------------------------------------
   C1
--------------------------------------------------------------------- -/

/-- C1 counterexample: with calibration disabled, input sample 1 on every
axis and output locations previously holding 0, gyroCalRemoveBias leaves the
outputs at 0, not at the input value 1: the outputs do not equal the
inputs. -/
theorem C1_counterexample :
    gyroCal0.gyro_calibration_enable = false ∧
    gyroCalRemoveBias gyroCal0 1 1 1 0 0 0 = (0, 0, 0) ∧
    ((0 : ℚ), (0 : ℚ), (0 : ℚ)) ≠ ((1 : ℚ), (1 : ℚ), (1 : ℚ)) :=
  ⟨rfl, rfl, by decide⟩

/-- C1 (amended): with calibration disabled, gyroCalRemoveBias writes nothing
through the output pointers, so the output locations keep exactly the values
they held before the call; the outputs equal the inputs precisely when the
caller passes the input variables as the outputs (an in-place call). -/
theorem C1_removeBias_disabled_leaves_outputs (g : GyroCal)
    (xi yi zi xo0 yo0 zo0 : ℚ) (h : g.gyro_calibration_enable = false) :
    gyroCalRemoveBias g xi yi zi xo0 yo0 zo0 = (xo0, yo0, zo0) := by
  simp [gyroCalRemoveBias, h]

theorem C1_witness :
    gyroCalRemoveBias gyroCal0 1 2 3 4 5 6 = (4, 5, 6) :=
  C1_removeBias_disabled_leaves_outputs gyroCal0 1 2 3 4 5 6 rfl

/- ---------------------------------------------------------------------
   C2
--------------------------------------------------------------------- -/

/-- C2: in one iteration of the dispatch loop, if no handler retains the
event (no osRetainCurrentEvent call is made, hence none succeeds) the free
info is applied exactly once after delivery; if a handler calls retain, the
first call succeeds and copies the free info out, all later calls fail, the
loop applies no free action, and one later osFreeRetainedEvent brings the
total number of applications to exactly one. -/
theorem C2_free_info_applied_exactly_once (fi : TaggedPtr) (attempts : Nat)
    (hfi : taggedPtrIsNull fi = false) :
    (attempts = 0 →
      (osMainDequeueLoopIter fi attempts).1 = [] ∧
      (osMainDequeueLoopIter fi attempts).2.freeApplied = 1) ∧
    (1 ≤ attempts →
      (osMainDequeueLoopIter fi attempts).1.head? = some (true, some fi) ∧
      (∀ c ∈ (osMainDequeueLoopIter fi attempts).1.tail, c.1 = false) ∧
      (osMainDequeueLoopIter fi attempts).2.freeApplied = 0 ∧
      (osFreeRetainedEvent fi
        (osMainDequeueLoopIter fi attempts).2).freeApplied = 1) := by
  constructor
  · intro h
    subst h
    simp [osMainDequeueLoopIter, runRetainCalls, handleEventFreeing, hfi]
  · intro h
    obtain ⟨n, rfl⟩ : ∃ n, attempts = n + 1 := ⟨attempts - 1, by omega⟩
    have hs : ({ curEvtFreeInfo := some fi, freeApplied := 0 } :
        LoopState).curEvtFreeInfo = some fi := rfl
    simp [osMainDequeueLoopIter, runRetainCalls_some n _ fi hs,
          osFreeRetainedEvent, handleEventFreeing, hfi]

theorem C2_witness :
    ((osMainDequeueLoopIter (TaggedPtr.fromPtr 5) 0).2.freeApplied = 1) ∧
    ((osMainDequeueLoopIter (TaggedPtr.fromPtr 5) 2).2.freeApplied = 0 ∧
     (osFreeRetainedEvent (TaggedPtr.fromPtr 5)
        (osMainDequeueLoopIter (TaggedPtr.fromPtr 5) 2).2).freeApplied = 1) :=
  ⟨((C2_free_info_applied_exactly_once (TaggedPtr.fromPtr 5) 0 rfl).1 rfl).2,
   ((C2_free_info_applied_exactly_once (TaggedPtr.fromPtr 5) 2 rfl).2
      (by decide)).2.2.1,
   ((C2_free_info_applied_exactly_once (TaggedPtr.fromPtr 5) 2 rfl).2
      (by decide)).2.2.2⟩

/- ---------------------------------------------------------------------
   C9
--------------------------------------------------------------------- -/

/-- C9: while a private event is delivered, every osRetainCurrentEvent call
returns false (the current-event slot was cleared before the handler ran);
the slot is restored afterwards; and whether or not the target task exists,
the free info of the private event is applied exactly once. -/
theorem C9_private_event_not_retainable (targetExists : Bool) (attempts : Nat)
    (fi : TaggedPtr) (s : LoopState) (hfi : taggedPtrIsNull fi = false) :
    (∀ c ∈ (osInternalEvtHandlePrivate targetExists attempts fi s).1,
       c.1 = false) ∧
    (osInternalEvtHandlePrivate targetExists attempts fi s).2.freeApplied =
      s.freeApplied + 1 ∧
    (osInternalEvtHandlePrivate targetExists attempts fi s).2.curEvtFreeInfo =
      s.curEvtFreeInfo := by
  cases targetExists with
  | false => simp [osInternalEvtHandlePrivate, handleEventFreeing, hfi]
  | true =>
    have h : ({ s with curEvtFreeInfo := none } : LoopState).curEvtFreeInfo
        = none := rfl
    simp [osInternalEvtHandlePrivate, runRetainCalls_none attempts _ h,
          handleEventFreeing, hfi]

theorem C9_witness :
    (∀ c ∈ (osInternalEvtHandlePrivate true 2 (TaggedPtr.fromPtr 7)
              { curEvtFreeInfo := some (TaggedPtr.fromUint 3),
                freeApplied := 0 }).1, c.1 = false) ∧
    (osInternalEvtHandlePrivate true 2 (TaggedPtr.fromPtr 7)
       { curEvtFreeInfo := some (TaggedPtr.fromUint 3),
         freeApplied := 0 }).2.freeApplied = 0 + 1 ∧
    (osInternalEvtHandlePrivate true 2 (TaggedPtr.fromPtr 7)
       { curEvtFreeInfo := some (TaggedPtr.fromUint 3),
         freeApplied := 0 }).2.curEvtFreeInfo = some (TaggedPtr.fromUint 3) :=
  C9_private_event_not_retainable true 2 (TaggedPtr.fromPtr 7)
    { curEvtFreeInfo := some (TaggedPtr.fromUint 3), freeApplied := 0 } rfl

/- ---------------------------------------------------------------------
   C3
--------------------------------------------------------------------- -/

/-- C3: computeGyroCal commits a new bias (bias fields, bias temperature,
calibration time, stillness confidence, and the new-calibration flag) exactly
when every axis of the previous window mean of the gyro detector lies strictly
inside (-MAX_GYRO_BIAS, MAX_GYRO_BIAS); otherwise the state is returned
unchanged.  Consequently every committed bias satisfies the strict
MAX_GYRO_BIAS bound on each axis. -/
theorem C3_computeGyroCal_commit_iff_in_range (g : GyroCal) (t : Nat) :
    ((g.gyro_stillness_detect.prev_mean_x < MAX_GYRO_BIAS ∧
      -MAX_GYRO_BIAS < g.gyro_stillness_detect.prev_mean_x ∧
      g.gyro_stillness_detect.prev_mean_y < MAX_GYRO_BIAS ∧
      -MAX_GYRO_BIAS < g.gyro_stillness_detect.prev_mean_y ∧
      g.gyro_stillness_detect.prev_mean_z < MAX_GYRO_BIAS ∧
      -MAX_GYRO_BIAS < g.gyro_stillness_detect.prev_mean_z) →
      ((computeGyroCal g t).bias_x = g.gyro_stillness_detect.prev_mean_x ∧
       (computeGyroCal g t).bias_y = g.gyro_stillness_detect.prev_mean_y ∧
       (computeGyroCal g t).bias_z = g.gyro_stillness_detect.prev_mean_z ∧
       (computeGyroCal g t).bias_temperature_celsius =
         g.temperature_mean_celsius ∧
       (computeGyroCal g t).calibration_time_nanos = t ∧
       (computeGyroCal g t).stillness_confidence =
         g.gyro_stillness_detect.prev_stillness_confidence *
         g.accel_stillness_detect.prev_stillness_confidence *
         g.mag_stillness_detect.prev_stillness_confidence ∧
       (computeGyroCal g t).new_gyro_cal_available = true ∧
       |(computeGyroCal g t).bias_x| < MAX_GYRO_BIAS ∧
       |(computeGyroCal g t).bias_y| < MAX_GYRO_BIAS ∧
       |(computeGyroCal g t).bias_z| < MAX_GYRO_BIAS)) ∧
    (¬(g.gyro_stillness_detect.prev_mean_x < MAX_GYRO_BIAS ∧
       -MAX_GYRO_BIAS < g.gyro_stillness_detect.prev_mean_x ∧
       g.gyro_stillness_detect.prev_mean_y < MAX_GYRO_BIAS ∧
       -MAX_GYRO_BIAS < g.gyro_stillness_detect.prev_mean_y ∧
       g.gyro_stillness_detect.prev_mean_z < MAX_GYRO_BIAS ∧
       -MAX_GYRO_BIAS < g.gyro_stillness_detect.prev_mean_z) →
      computeGyroCal g t = g) := by
  constructor
  · intro h
    simp [computeGyroCal, h, abs_lt]
  · intro h
    simp [computeGyroCal, h]

theorem C3_witness :
    (computeGyroCal gyroCalC3 42).new_gyro_cal_available = true ∧
    (computeGyroCal gyroCalC3 42).bias_x = 1 / 100 ∧
    (computeGyroCal gyroCalC3 42).calibration_time_nanos = 42 ∧
    |(computeGyroCal gyroCalC3 42).bias_x| < MAX_GYRO_BIAS := by
  have h := (C3_computeGyroCal_commit_iff_in_range gyroCalC3 42).1
    (by norm_num [gyroCalC3, gyroStillDet0, gyroCal0, MAX_GYRO_BIAS])
  refine ⟨h.2.2.2.2.2.2.1, ?_, h.2.2.2.2.1, h.2.2.2.2.2.2.2.1⟩
  rw [h.1]
  norm_num [gyroCalC3, gyroStillDet0]

/- ---------------------------------------------------------------------
   C4
--------------------------------------------------------------------- -/

/-- C4: whenever the watchdog is armed (start time nonzero) and the sample
time exceeds the start by more than the timeout duration, the watchdog fires
and afterwards the stillness window end-time is 0, the per-detector
previous stillness confidences and the overall stillness confidence are 0,
prev_still is false, the watchdog start time is 0, the detector window-ready
flags are all false, and if the magnetometer was in use while its stillness
window was not ready it is disabled.  The arithmetic guard matches the
source form sample_time > timeout + start, which over the naturals is the
claim form sample_time - start > timeout. -/
theorem C4_checkWatchdog_timeout_resets (g : GyroCal) (tr : GyroCalTrackers)
    (t : Nat) (h1 : 0 < g.gyro_watchdog_start_nanos)
    (h2 : g.gyro_watchdog_timeout_duration_nanos +
            g.gyro_watchdog_start_nanos < t) :
    (checkWatchdog g tr t).1.stillness_win_endtime_nanos = 0 ∧
    (checkWatchdog g tr t).1.accel_stillness_detect.prev_stillness_confidence
      = 0 ∧
    (checkWatchdog g tr t).1.gyro_stillness_detect.prev_stillness_confidence
      = 0 ∧
    (checkWatchdog g tr t).1.mag_stillness_detect.prev_stillness_confidence
      = 0 ∧
    (checkWatchdog g tr t).1.stillness_confidence = 0 ∧
    (checkWatchdog g tr t).1.prev_still = false ∧
    (checkWatchdog g tr t).1.gyro_watchdog_start_nanos = 0 ∧
    (checkWatchdog g tr t).1.accel_stillness_detect.stillness_window_ready
      = false ∧
    (checkWatchdog g tr t).1.gyro_stillness_detect.stillness_window_ready
      = false ∧
    (checkWatchdog g tr t).1.mag_stillness_detect.stillness_window_ready
      = false ∧
    (g.using_mag_sensor = true →
      g.mag_stillness_detect.stillness_window_ready = false →
      (checkWatchdog g tr t).1.using_mag_sensor = false) := by
  have h0 : ¬g.gyro_watchdog_start_nanos = 0 := by omega
  cases hm : g.using_mag_sensor <;>
    simp [checkWatchdog, h0, h2, gyroTemperatureStatsTracker,
          gyroStillMeanTracker, gyroStillDetReset, hm]

theorem C4_witness :
    (checkWatchdog gyroCalC4 gyroCalTrackers0 12).1.stillness_win_endtime_nanos
      = 0 ∧
    (checkWatchdog gyroCalC4 gyroCalTrackers0
       12).1.gyro_watchdog_start_nanos = 0 ∧
    (checkWatchdog gyroCalC4 gyroCalTrackers0 12).1.prev_still = false ∧
    (checkWatchdog gyroCalC4 gyroCalTrackers0 12).1.using_mag_sensor = false := by
  have h := C4_checkWatchdog_timeout_resets gyroCalC4 gyroCalTrackers0 12
    (by decide) (by decide)
  exact ⟨h.1, h.2.2.2.2.2.2.1, h.2.2.2.2.2.1, h.2.2.2.2.2.2.2.2.2.2 rfl rfl⟩

/- ---------------------------------------------------------------------
   Helper lemmas about the subscription-list scan and swap-remove.
--------------------------------------------------------------------- -/

theorem findIdxq_none_iff (l : List Nat) (evt : Nat) :
    List.findIdx? (fun e => e == evt) l = none ↔ evt ∉ l := by
  rw [List.findIdx?_eq_none_iff]
  constructor
  · intro h hm
    simpa using h evt hm
  · intro h x hx
    simp only [beq_eq_false_iff_ne, ne_eq]
    intro he
    exact h (he ▸ hx)

theorem findIdxq_some_spec (l : List Nat) (evt i : Nat)
    (h : List.findIdx? (fun e => e == evt) l = some i) :
    i < l.length ∧ l.getD i 0 = evt := by
  rw [List.findIdx?_eq_some_iff_findIdx_eq] at h
  obtain ⟨hlen, hidx⟩ := h
  refine ⟨hlen, ?_⟩
  have hw : List.findIdx (fun e => e == evt) l < l.length := by
    rw [hidx]; exact hlen
  have hval := @List.findIdx_getElem _ (fun e => e == evt) l hw
  rw [← List.getD_eq_getElem l 0 hw] at hval
  rw [hidx] at hval
  simpa using hval

theorem getLastD_eq_getD_last (l : List Nat) : l ≠ [] →
    l.getLastD 0 = l.getD (l.length - 1) 0 := by
  induction l with
  | nil => intro h; simp at h
  | cons a l ih =>
    intro _
    cases l with
    | nil => simp
    | cons b m =>
      have := ih (by simp)
      simp only [List.getLastD_cons] at *
      simpa using this

theorem nodup_getElem_ne (l : List Nat) (hnd : l.Nodup) (i j : Nat)
    (hi : i < l.length) (hj : j < l.length) (hne : i ≠ j) : l[i] ≠ l[j] := by
  intro he
  exact hne ((List.Nodup.getElem_inj_iff hnd).mp he)

theorem swapRemove_mem (l : List Nat) (evt : Nat) (i : Nat) (hnd : l.Nodup)
    (hi : i < l.length) (hv : l.getD i 0 = evt) (e : Nat) :
    e ∈ (l.set i (l.getLastD 0)).dropLast ↔ e ∈ l ∧ e ≠ evt := by
  have hne : l ≠ [] := by intro h; subst h; simp at hi
  have hlast : l.length - 1 < l.length := by omega
  have hb : l.getLastD 0 = l[l.length - 1] := by
    rw [getLastD_eq_getD_last l hne, List.getD_eq_getElem l 0 hlast]
  have hvi : l[i] = evt := by rw [← List.getD_eq_getElem l 0 hi, hv]
  constructor
  · intro hmem
    obtain ⟨j, hj, hval⟩ := List.mem_iff_getElem.mp hmem
    have hj2 : j < l.length - 1 := by simpa using hj
    have hjl : j < l.length := by omega
    have hTj : ((l.set i (l.getLastD 0)).dropLast)[j] =
        if i = j then l.getLastD 0 else l[j] := by
      rw [List.getElem_dropLast, List.getElem_set]
    by_cases hij : i = j
    · rw [hTj, if_pos hij, hb] at hval
      refine ⟨by rw [← hval]; exact List.getElem_mem hlast, ?_⟩
      rw [← hval, ← hvi]
      exact nodup_getElem_ne l hnd (l.length - 1) i hlast hi (by omega)
    · rw [hTj, if_neg hij] at hval
      refine ⟨by rw [← hval]; exact List.getElem_mem hjl, ?_⟩
      rw [← hval, ← hvi]
      exact nodup_getElem_ne l hnd j i hjl hi (by omega)
  · rintro ⟨hmem, hnee⟩
    obtain ⟨k, hk, hkv⟩ := List.mem_iff_getElem.mp hmem
    have hki : k ≠ i := by
      intro h; subst h; rw [hvi] at hkv; exact hnee hkv.symm
    have hkv2 : l.getD k 0 = e := by
      rw [List.getD_eq_getElem l 0 hk]; exact hkv
    rw [List.mem_iff_getElem]
    by_cases hklast : k < l.length - 1
    · have hks : k < ((l.set i (l.getLastD 0)).dropLast).length := by
        simp; omega
      refine ⟨k, hks, ?_⟩
      rw [List.getElem_dropLast, List.getElem_set, if_neg (by omega)]
      exact hkv
    · have hke : k = l.length - 1 := by omega
      have hil : i < l.length - 1 := by omega
      have his : i < ((l.set i (l.getLastD 0)).dropLast).length := by
        simp; omega
      refine ⟨i, his, ?_⟩
      rw [List.getElem_dropLast, List.getElem_set, if_pos rfl, hb]
      rw [hke] at hkv2
      rw [← List.getD_eq_getElem l 0 hlast]
      exact hkv2

theorem swapRemove_nodup (l : List Nat) (evt : Nat) (i : Nat) (hnd : l.Nodup)
    (hi : i < l.length) (hv : l.getD i 0 = evt) :
    ((l.set i (l.getLastD 0)).dropLast).Nodup := by
  have hne : l ≠ [] := by intro h; subst h; simp at hi
  have hlast : l.length - 1 < l.length := by omega
  have hb : l.getLastD 0 = l[l.length - 1] := by
    rw [getLastD_eq_getD_last l hne, List.getD_eq_getElem l 0 hlast]
  apply List.pairwise_iff_getElem.mpr
  intro a b ha hb2 hab
  have ha2 : a < l.length - 1 := by simpa using ha
  have hb3 : b < l.length - 1 := by simpa using hb2
  have hal : a < l.length := by omega
  have hbl : b < l.length := by omega
  have hTa : ((l.set i (l.getLastD 0)).dropLast)[a] =
      if i = a then l.getLastD 0 else l[a] := by
    rw [List.getElem_dropLast, List.getElem_set]
  have hTb : ((l.set i (l.getLastD 0)).dropLast)[b] =
      if i = b then l.getLastD 0 else l[b] := by
    rw [List.getElem_dropLast, List.getElem_set]
  rw [hTa, hTb]
  by_cases hia : i = a <;> by_cases hib : i = b
  · omega
  · rw [if_pos hia, if_neg hib, hb]
    exact nodup_getElem_ne l hnd (l.length - 1) b hlast hbl (by omega)
  · rw [if_neg hia, if_pos hib, hb]
    exact nodup_getElem_ne l hnd a (l.length - 1) hal hlast (by omega)
  · rw [if_neg hia, if_neg hib]
    exact nodup_getElem_ne l hnd a b hal hbl (by omega)

/- ---------------------------------------------------------------------
   Step lemmas for one subscribe/unsubscribe internal action.
--------------------------------------------------------------------- -/

theorem subStep_sub_present (t : SubList) (evt : Nat) (ok : Bool)
    (hm : evt ∈ t.subbedEvents) :
    osInternalEvtHandleSubUnsub true evt ok t = t := by
  cases hf : t.subbedEvents.findIdx? (fun e => e == evt) with
  | none => exact absurd hm ((findIdxq_none_iff _ _).mp hf)
  | some i => simp [osInternalEvtHandleSubUnsub, hf]

theorem subStep_sub_absent (t : SubList) (evt : Nat)
    (hm : evt ∉ t.subbedEvents)
    (hlen : t.subbedEvents.length ≤ t.subbedEvtListSz)
    (h1 : 1 ≤ t.subbedEvtListSz) :
    osInternalEvtHandleSubUnsub true evt true t =
      { subbedEvents := t.subbedEvents ++ [evt],
        subbedEvtListSz :=
          if t.subbedEvtListSz = t.subbedEvents.length then
            (t.subbedEvtListSz * 3 + 1) / 2 else t.subbedEvtListSz } := by
  have hf : t.subbedEvents.findIdx? (fun e => e == evt) = none :=
    (findIdxq_none_iff _ _).mpr hm
  by_cases hfull : t.subbedEvtListSz = t.subbedEvents.length
  · have hlt : t.subbedEvents.length <
        (t.subbedEvents.length * 3 + 1) / 2 := by omega
    simp [osInternalEvtHandleSubUnsub, hf, hfull, hlt]
  · have hlt : t.subbedEvents.length < t.subbedEvtListSz := by omega
    simp [osInternalEvtHandleSubUnsub, hf, hfull, hlt]

theorem subStep_unsub_absent (t : SubList) (evt : Nat) (ok : Bool)
    (hm : evt ∉ t.subbedEvents) :
    osInternalEvtHandleSubUnsub false evt ok t = t := by
  have hf : t.subbedEvents.findIdx? (fun e => e == evt) = none :=
    (findIdxq_none_iff _ _).mpr hm
  simp [osInternalEvtHandleSubUnsub, hf]

theorem subStep_unsub_present (t : SubList) (evt : Nat) (ok : Bool)
    (hnd : t.subbedEvents.Nodup) (hm : evt ∈ t.subbedEvents) :
    (osInternalEvtHandleSubUnsub false evt ok t).subbedEvents.Nodup ∧
    (∀ e, e ∈ (osInternalEvtHandleSubUnsub false evt ok t).subbedEvents ↔
       e ∈ t.subbedEvents ∧ e ≠ evt) ∧
    (osInternalEvtHandleSubUnsub false evt ok t).subbedEvtListSz =
      t.subbedEvtListSz ∧
    (osInternalEvtHandleSubUnsub false evt ok t).subbedEvents.length =
      t.subbedEvents.length - 1 := by
  cases hf : t.subbedEvents.findIdx? (fun e => e == evt) with
  | none => exact absurd hm ((findIdxq_none_iff _ _).mp hf)
  | some i =>
    obtain ⟨hi, hv⟩ := findIdxq_some_spec _ _ _ hf
    have hres : (osInternalEvtHandleSubUnsub false evt ok t).subbedEvents =
        (t.subbedEvents.set i (t.subbedEvents.getLastD 0)).dropLast := by
      simp [osInternalEvtHandleSubUnsub, hf]
    rw [hres]
    refine ⟨swapRemove_nodup _ evt i hnd hi hv,
            fun e => swapRemove_mem _ evt i hnd hi hv e, ?_, by simp⟩
    simp [osInternalEvtHandleSubUnsub, hf]

/-- Membership after one action, and preservation of the invariant. -/
theorem subStep_char (t : SubList) (b : Bool) (v : Nat) (hinv : SubInv t) :
    SubInv (osInternalEvtHandleSubUnsub b v true t) ∧
    (∀ e, e ∈ (osInternalEvtHandleSubUnsub b v true t).subbedEvents ↔
       (if v = e then b = true else e ∈ t.subbedEvents)) := by
  obtain ⟨hnd, hlen, h1⟩ := hinv
  cases b with
  | true =>
    by_cases hm : v ∈ t.subbedEvents
    · rw [subStep_sub_present t v true hm]
      refine ⟨⟨hnd, hlen, h1⟩, fun e => ?_⟩
      by_cases hve : v = e
      · subst hve; simp [hm]
      · simp [hve]
    · rw [subStep_sub_absent t v hm hlen h1]
      constructor
      · refine ⟨?_, ?_, ?_⟩
        · simp [List.nodup_append, hnd, hm]
        · by_cases hfull : t.subbedEvtListSz = t.subbedEvents.length <;>
            simp [hfull] <;> omega
        · by_cases hfull : t.subbedEvtListSz = t.subbedEvents.length <;>
            simp [hfull] <;> omega
      · intro e
        by_cases hve : v = e
        · subst hve; simp
        · simp [hve, Ne.symm hve]
  | false =>
    by_cases hm : v ∈ t.subbedEvents
    · obtain ⟨hnd2, hmem2, hsz2, hlen2⟩ := subStep_unsub_present t v true hnd hm
      refine ⟨⟨hnd2, ?_, ?_⟩, fun e => ?_⟩
      · rw [hlen2, hsz2]; omega
      · rw [hsz2]; omega
      · rw [hmem2 e]
        by_cases hve : v = e
        · subst hve; simp
        · simp [hve, Ne.symm hve]
    · rw [subStep_unsub_absent t v true hm]
      refine ⟨⟨hnd, hlen, h1⟩, fun e => ?_⟩
      by_cases hve : v = e
      · subst hve; simp [hm]
      · simp [hve]

theorem lastActionFor_cons (a : Bool × Nat) (acts : List (Bool × Nat))
    (e : Nat) :
    lastActionFor (a :: acts) e =
      match lastActionFor acts e with
      | some b => some b
      | none => if a.2 = e then some a.1 else none := by
  unfold lastActionFor
  rw [List.reverse_cons, List.find?_append]
  cases hfind : List.find? (fun x => x.2 == e) acts.reverse with
  | some x => simp [hfind]
  | none =>
    by_cases he : a.2 = e
    · simp [hfind, he, List.find?]
    · have hbe : (a.2 == e) = false := by simpa using he
      simp [hfind, he, List.find?, hbe]

theorem runSubActions_spec (acts : List (Bool × Nat)) : ∀ t : SubList,
    SubInv t →
    SubInv (runSubActions acts t) ∧
    (∀ e, e ∈ (runSubActions acts t).subbedEvents ↔
      (lastActionFor acts e = some true ∨
       (lastActionFor acts e = none ∧ e ∈ t.subbedEvents))) := by
  induction acts with
  | nil =>
    intro t ht
    refine ⟨ht, fun e => ?_⟩
    simp [runSubActions, lastActionFor]
  | cons a acts ih =>
    intro t ht
    have hstep := subStep_char t a.1 a.2 ht
    have hrec := ih (osInternalEvtHandleSubUnsub a.1 a.2 true t) hstep.1
    have hfold : runSubActions (a :: acts) t =
        runSubActions acts (osInternalEvtHandleSubUnsub a.1 a.2 true t) := rfl
    rw [hfold]
    refine ⟨hrec.1, fun e => ?_⟩
    rw [hrec.2 e, lastActionFor_cons, hstep.2 e]
    cases hla : lastActionFor acts e with
    | some b => simp
    | none =>
      by_cases hve : a.2 = e <;> simp [hve]

/- ---------------------------------------------------------------------
   C5
--------------------------------------------------------------------- -/

/-- C5: over any sequence of subscribe/unsubscribe internal actions processed
by the dispatch loop on a task (starting from the empty list a task gets at
start, with any positive initial capacity), the subscription list stays
duplicate-free and contains an event type exactly when the most recent action
for that type was a subscribe; a subscribe of a present type is a no-op, and
an unsubscribe of a present type removes it by moving the last element into
its slot. -/
theorem C5_subscription_list_semantics (acts : List (Bool × Nat)) (sz0 : Nat)
    (h1 : 1 ≤ sz0) :
    (runSubActions acts ⟨[], sz0⟩).subbedEvents.Nodup ∧
    (∀ e, e ∈ (runSubActions acts ⟨[], sz0⟩).subbedEvents ↔
       lastActionFor acts e = some true) ∧
    (∀ (t : SubList) (evt : Nat) (ok : Bool), evt ∈ t.subbedEvents →
       osInternalEvtHandleSubUnsub true evt ok t = t) ∧
    (∀ (t : SubList) (evt : Nat) (ok : Bool) (i : Nat),
       t.subbedEvents.findIdx? (fun e => e == evt) = some i →
       (osInternalEvtHandleSubUnsub false evt ok t).subbedEvents =
         (t.subbedEvents.set i (t.subbedEvents.getLastD 0)).dropLast) := by
  have hinv : SubInv ⟨[], sz0⟩ := ⟨List.nodup_nil, by simp, h1⟩
  have hspec := runSubActions_spec acts ⟨[], sz0⟩ hinv
  refine ⟨hspec.1.1, fun e => ?_, fun t evt ok hm => subStep_sub_present t evt ok hm,
         fun t evt ok i hf => by simp [osInternalEvtHandleSubUnsub, hf]⟩
  rw [hspec.2 e]
  simp

theorem C5_witness :
    (runSubActions [(true, 5), (true, 7), (true, 5), (false, 5)]
       ⟨[], 1⟩).subbedEvents.Nodup ∧
    (7 ∈ (runSubActions [(true, 5), (true, 7), (true, 5), (false, 5)]
            ⟨[], 1⟩).subbedEvents ↔
       lastActionFor [(true, 5), (true, 7), (true, 5), (false, 5)] 7 =
         some true) :=
  ⟨(C5_subscription_list_semantics
      [(true, 5), (true, 7), (true, 5), (false, 5)] 1 (by decide)).1,
   (C5_subscription_list_semantics
      [(true, 5), (true, 7), (true, 5), (false, 5)] 1 (by decide)).2.1 7⟩

/- ---------------------------------------------------------------------
   C7
--------------------------------------------------------------------- -/

/-- C7 counterexample: a subscribe whose slab record and enqueue both succeed
makes the originating operation return true; when the later growth allocation
inside the dispatch loop fails on a full list, the subscribe is dropped with
no failure report: the list is unchanged and the new type is absent, yet the
originating operation had already reported success. -/
theorem C7_counterexample :
    osEventSubscribeUnsubscribe true true = true ∧
    osInternalEvtHandleSubUnsub true 7 false ⟨[1, 2, 3, 4, 5, 6], 6⟩ =
      ⟨[1, 2, 3, 4, 5, 6], 6⟩ ∧
    7 ∉ (osInternalEvtHandleSubUnsub true 7 false
           ⟨[1, 2, 3, 4, 5, 6], 6⟩).subbedEvents := by decide

/-- C7 (amended): the allocation failure reported as a false return from the
originating operation is the slab allocation of the subscribe request record
(and the enqueue), which happen inside osEventSubscribe; the heap allocation
that grows the subscription list happens later, inside the dispatch loop,
after the originating operation has already returned, and its failure is
silent: with the list full the subscribe is dropped and the task state is
unchanged. -/
theorem C7_alloc_failure_reporting :
    (∀ enqueueOk : Bool, osEventSubscribeUnsubscribe false enqueueOk = false) ∧
    (∀ (t : SubList) (evt : Nat),
       t.subbedEvtListSz = t.subbedEvents.length → evt ∉ t.subbedEvents →
       osInternalEvtHandleSubUnsub true evt false t = t) := by
  refine ⟨fun q => rfl, fun t evt hfull hm => ?_⟩
  have hf : t.subbedEvents.findIdx? (fun e => e == evt) = none :=
    (findIdxq_none_iff _ _).mpr hm
  simp [osInternalEvtHandleSubUnsub, hf, hfull]

theorem C7_witness :
    osEventSubscribeUnsubscribe false true = false ∧
    osInternalEvtHandleSubUnsub true 7 false ⟨[1, 2], 2⟩ = ⟨[1, 2], 2⟩ :=
  ⟨C7_alloc_failure_reporting.1 true,
   C7_alloc_failure_reporting.2 ⟨[1, 2], 2⟩ 7 rfl (by decide)⟩

/- ---------------------------------------------------------------------
   C8
--------------------------------------------------------------------- -/

/-- C8 counterexample: growing a full list of capacity 6 allocates
(6 * 3 + 1) / 2 = 9 entries under C integer division, while the claimed
formula ceil((6 * 3 + 1) / 2) gives 10. -/
theorem C8_counterexample :
    (osInternalEvtHandleSubUnsub true 7 true
       ⟨[1, 2, 3, 4, 5, 6], 6⟩).subbedEvtListSz = 9 ∧
    specSubListGrowSz 6 = 10 ∧ (9 : Nat) ≠ 10 := by decide

/-- C8 (amended): when a full subscription list grows, the replacement buffer
has (old * 3 + 1) / 2 entries under C integer (floor) division — which equals
ceil(old * 3 / 2), not ceil((old * 3 + 1) / 2) — and the existing entries are
all carried over before the new event type is appended. -/
theorem C8_grow_size_and_copy (t : SubList) (evt : Nat)
    (hfull : t.subbedEvtListSz = t.subbedEvents.length)
    (h1 : 1 ≤ t.subbedEvtListSz) (hm : evt ∉ t.subbedEvents) :
    (osInternalEvtHandleSubUnsub true evt true t).subbedEvtListSz =
      (t.subbedEvtListSz * 3 + 1) / 2 ∧
    (osInternalEvtHandleSubUnsub true evt true t).subbedEvents =
      t.subbedEvents ++ [evt] ∧
    3 * t.subbedEvtListSz ≤
      2 * ((t.subbedEvtListSz * 3 + 1) / 2) ∧
    2 * ((t.subbedEvtListSz * 3 + 1) / 2) ≤ 3 * t.subbedEvtListSz + 1 := by
  rw [subStep_sub_absent t evt hm (by omega) h1]
  refine ⟨by simp [hfull], rfl, by omega, by omega⟩

theorem C8_witness :
    (osInternalEvtHandleSubUnsub true 9 true
       ⟨[1, 2], 2⟩).subbedEvtListSz = (2 * 3 + 1) / 2 ∧
    (osInternalEvtHandleSubUnsub true 9 true ⟨[1, 2], 2⟩).subbedEvents =
      [1, 2] ++ [9] :=
  ⟨(C8_grow_size_and_copy ⟨[1, 2], 2⟩ 9 rfl (by decide) (by decide)).1,
   (C8_grow_size_and_copy ⟨[1, 2], 2⟩ 9 rfl (by decide) (by decide)).2.1⟩

/- ---------------------------------------------------------------------
   Helper lemmas about tid allocation.
--------------------------------------------------------------------- -/

theorem osGetFreeTid_succ (live : List Nat) (first last fuel cur : Nat) :
    osGetFreeTid live first last (fuel + 1) cur =
      if osTaskFindByTid live (nextTidCandidate first last cur) then
        osGetFreeTid live first last fuel (nextTidCandidate first last cur)
      else some (nextTidCandidate first last cur) := rfl

theorem nextTidCandidate_ge (first last cur : Nat) (h1 : first ≤ cur + 1) :
    first ≤ nextTidCandidate first last cur := by
  unfold nextTidCandidate; split <;> omega

theorem nextTidCandidate_le (first last cur : Nat) (hfl : first ≤ last)
    (h2 : cur ≤ last) : nextTidCandidate first last cur ≤ last := by
  unfold nextTidCandidate; split <;> omega

theorem osGetFreeTid_finds (live : List Nat) (first last t : Nat)
    (ht1 : first ≤ t) (ht2 : t ≤ last)
    (htfree : osTaskFindByTid live t = false) :
    ∀ fuel cur, first ≤ cur + 1 → cur ≤ last →
      tidCycleDist first last cur t ≤ fuel →
      ∃ r, osGetFreeTid live first last fuel cur = some r ∧
        first ≤ r ∧ r ≤ last ∧ osTaskFindByTid live r = false := by
  intro fuel
  induction fuel with
  | zero =>
    intro cur _ _ h3
    exact absurd h3 (by unfold tidCycleDist; split <;> omega)
  | succ n ih =>
    intro cur h1 h2 h3
    rw [osGetFreeTid_succ]
    have hc1 : first ≤ nextTidCandidate first last cur :=
      nextTidCandidate_ge first last cur h1
    have hc2 : nextTidCandidate first last cur ≤ last :=
      nextTidCandidate_le first last cur (by omega) h2
    cases hlive : osTaskFindByTid live (nextTidCandidate first last cur) with
    | false =>
      refine ⟨nextTidCandidate first last cur, ?_, hc1, hc2, hlive⟩
      simp [hlive]
    | true =>
      have hne : nextTidCandidate first last cur ≠ t := by
        intro he
        rw [he, htfree] at hlive
        exact Bool.noConfusion hlive
      have hd : tidCycleDist first last (nextTidCandidate first last cur) t
          ≤ n := by
        by_cases hcl : cur = last
        · have hcv : nextTidCandidate first last cur = first := by
            unfold nextTidCandidate; simp [hcl]
          rw [hcv] at hne ⊢
          unfold tidCycleDist at h3 ⊢
          subst hcl
          split at h3 <;> split <;> omega
        · have hcv : nextTidCandidate first last cur = cur + 1 := by
            unfold nextTidCandidate; simp [hcl]
          rw [hcv] at hne ⊢
          unfold tidCycleDist at h3 ⊢
          split at h3 <;> split <;> omega
      have hrec := ih (nextTidCandidate first last cur) (by omega) hc2 hd
      simpa [hlive] using hrec

theorem tidCycleDist_le_range (first last cur t : Nat) (h1 : first ≤ cur + 1)
    (h2 : cur ≤ last) (ht1 : first ≤ t) (ht2 : t ≤ last) :
    tidCycleDist first last cur t ≤ last + 1 - first := by
  unfold tidCycleDist; split <;> omega

theorem exists_free_tid (live : List Nat) (first last : Nat)
    (hcard : live.length < last + 1 - first) :
    ∃ t, first ≤ t ∧ t ≤ last ∧ osTaskFindByTid live t = false := by
  by_contra hc
  simp only [not_exists, not_and, Bool.not_eq_false] at hc
  have hsub : Finset.Icc first last ⊆ live.toFinset := by
    intro t ht
    rw [Finset.mem_Icc] at ht
    have hlive := hc t ht.1 ht.2
    simp only [osTaskFindByTid, List.any_eq_true, Bool.and_eq_true,
      Bool.not_eq_eq_eq_not, Bool.not_true, beq_eq_false_iff_ne, ne_eq,
      beq_iff_eq] at hlive
    obtain ⟨x, hx, _, hxt⟩ := hlive
    rw [List.mem_toFinset]
    exact hxt ▸ hx
  have hle := Finset.card_le_card hsub
  rw [Nat.card_Icc] at hle
  have := live.toFinset_card_le
  omega

theorem osGetFreeTid_all_live_none (live : List Nat) (first last : Nat)
    (hfl : first ≤ last)
    (hall : ∀ t, first ≤ t → t ≤ last → osTaskFindByTid live t = true) :
    ∀ fuel cur, first ≤ cur + 1 → cur ≤ last →
      osGetFreeTid live first last fuel cur = none := by
  intro fuel
  induction fuel with
  | zero => intro cur _ _; rfl
  | succ n ih =>
    intro cur h1 h2
    have hc1 : first ≤ nextTidCandidate first last cur :=
      nextTidCandidate_ge first last cur h1
    have hc2 : nextTidCandidate first last cur ≤ last :=
      nextTidCandidate_le first last cur (by omega) h2
    rw [osGetFreeTid_succ]
    simp only [hall _ hc1 hc2, if_true]
    exact ih _ (by omega) hc2

/- ---------------------------------------------------------------------
   C6
--------------------------------------------------------------------- -/

/-- C6: whenever some tid in [first, last] is free, osGetFreeTid (run with
enough fuel for one trip around the range) returns a tid in [first, last]
that no live task holds, advancing the wrap-around counter and skipping live
tids; in particular, with the counter at first - 1 and a single live task
holding first, it returns first + 1. -/
theorem C6_osGetFreeTid_fresh_in_range :
    (∀ (live : List Nat) (first last cur : Nat),
       first ≤ cur + 1 → cur ≤ last →
       (∃ t, first ≤ t ∧ t ≤ last ∧ osTaskFindByTid live t = false) →
       ∃ r, osGetFreeTid live first last (last + 1 - first) cur = some r ∧
         first ≤ r ∧ r ≤ last ∧ osTaskFindByTid live r = false) ∧
    (∀ first last : Nat, 1 ≤ first → first + 1 ≤ last →
       osGetFreeTid [first] first last (last + 1 - first) (first - 1) =
         some (first + 1)) := by
  constructor
  · rintro live first last cur h1 h2 ⟨t, ht1, ht2, htf⟩
    exact osGetFreeTid_finds live first last t ht1 ht2 htf _ cur h1 h2
      (tidCycleDist_le_range first last cur t h1 h2 ht1 ht2)
  · intro first last hf hl
    obtain ⟨k, hk⟩ : ∃ k, last + 1 - first = k + 2 :=
      ⟨last - first - 1, by omega⟩
    rw [hk, osGetFreeTid_succ]
    have hc : nextTidCandidate first last (first - 1) = first := by
      unfold nextTidCandidate; split <;> omega
    rw [hc]
    have hlive1 : osTaskFindByTid [first] first = true := by
      simp [osTaskFindByTid]
      omega
    simp only [hlive1, if_true]
    rw [osGetFreeTid_succ]
    have hc2 : nextTidCandidate first last first = first + 1 := by
      unfold nextTidCandidate; split <;> omega
    rw [hc2]
    have hlive2 : osTaskFindByTid [first] (first + 1) = false := by
      simp [osTaskFindByTid]
    simp [hlive2]

theorem C6_witness :
    (∃ r, osGetFreeTid [1] 1 10 (10 + 1 - 1) 0 = some r ∧
       1 ≤ r ∧ r ≤ 10 ∧ osTaskFindByTid [1] r = false) ∧
    osGetFreeTid [1] 1 10 (10 + 1 - 1) (1 - 1) = some (1 + 1) :=
  ⟨C6_osGetFreeTid_fresh_in_range.1 [1] 1 10 0 (by decide) (by decide)
     ⟨2, by decide, by decide, by decide⟩,
   C6_osGetFreeTid_fresh_in_range.2 1 10 (by decide) (by decide)⟩

/- ---------------------------------------------------------------------
   C10
--------------------------------------------------------------------- -/

/-- C10 counterexample: with range [1, 3], live tids 3 and 1, and the counter
at 2, the loop wraps all the way around (3 is live, then 1 is live) and
returns 2 — the current value of the counter itself — even though 2 was not
live, so the loop does at times return the current counter value. -/
theorem C10_counterexample :
    osTaskFindByTid [3, 1] 2 = false ∧
    osGetFreeTid [3, 1] 1 3 3 2 = some 2 := by decide

/-- C10 (amended): osGetFreeTid terminates (with fuel one trip around the
range) whenever some tid in [first, last] is not live, which the pigeonhole
argument guarantees when the number of live tasks is below the range size;
the counter is advanced before each test, so the first candidate tested is
the successor of the counter, not the counter itself — the old counter
value can still be returned after a full wrap when every other candidate is
live; and if every tid in the range is live, the loop never terminates: it
exhausts any amount of fuel. -/
theorem C10_osGetFreeTid_termination :
    (∀ (live : List Nat) (first last cur : Nat),
       first ≤ cur + 1 → cur ≤ last → live.length < last + 1 - first →
       ∃ r, osGetFreeTid live first last (last + 1 - first) cur = some r ∧
         first ≤ r ∧ r ≤ last ∧ osTaskFindByTid live r = false) ∧
    (∀ (live : List Nat) (first last fuel cur : Nat),
       osGetFreeTid live first last (fuel + 1) cur =
         if osTaskFindByTid live (nextTidCandidate first last cur) then
           osGetFreeTid live first last fuel (nextTidCandidate first last cur)
         else some (nextTidCandidate first last cur)) ∧
    (∀ (live : List Nat) (first last : Nat), first ≤ last →
       (∀ t, first ≤ t → t ≤ last → osTaskFindByTid live t = true) →
       ∀ fuel cur, first ≤ cur + 1 → cur ≤ last →
         osGetFreeTid live first last fuel cur = none) := by
  refine ⟨?_, fun live first last fuel cur =>
      osGetFreeTid_succ live first last fuel cur,
    fun live first last hfl hall =>
      osGetFreeTid_all_live_none live first last hfl hall⟩
  intro live first last cur h1 h2 hcard
  obtain ⟨t, ht1, ht2, htf⟩ := exists_free_tid live first last hcard
  exact osGetFreeTid_finds live first last t ht1 ht2 htf _ cur h1 h2
    (tidCycleDist_le_range first last cur t h1 h2 ht1 ht2)

theorem C10_witness :
    (∃ r, osGetFreeTid [1] 1 10 (10 + 1 - 1) 0 = some r ∧
       1 ≤ r ∧ r ≤ 10 ∧ osTaskFindByTid [1] r = false) ∧
    osGetFreeTid [1, 2, 3] 1 3 5 2 = none :=
  ⟨C10_osGetFreeTid_termination.1 [1] 1 10 0 (by decide) (by decide)
     (by decide),
   C10_osGetFreeTid_termination.2.2 [1, 2, 3] 1 3 (by decide)
     (by intro t ha hb; interval_cases t <;> decide) 5 2 (by decide)
     (by decide)⟩
